import Mathlib

/-!
Shallow embedding of the L'Oréal routine-builder client (`script.js`).

The client keeps four pieces of state: a memoized product catalog
(`window.allProductsCache`), an insertion-ordered selection map
(`selectedProducts`, a JS `Map`), an append-only conversation array
(`messages`), and the visible chat window.  Selections are persisted to
`localStorage` as a JSON array of ids.  Remote effects (the catalog fetch
and the completion POST) are modelled by passing the outcome of the
request as an explicit oracle argument; the DOM is modelled only where the
logic reads it back (the list of chat messages, the disabled flags of the
two buttons).
-/

namespace RoutineBuilder

/-- Message roles used by the conversation array. -/
inductive Role
  | system
  | user
  | assistant
deriving DecidableEq

/-- One entry of the conversation array or of the chat window. -/
structure Message where
  role : Role
  content : String
deriving DecidableEq

/-- A catalog product record (fields of `products.json` entries). -/
structure Product where
  id : Int
  name : String
  brand : String
  category : String
  description : String
  image : String
deriving DecidableEq

/- ----------------------------------------------------------------
   JS `Map` over product ids, as an insertion-ordered association list
   (JS `Map` iterates keys in insertion order; `set` on an existing key
   keeps its position, `delete` + `set` moves it to the end).
   ---------------------------------------------------------------- -/

/-- `selectedProducts`: insertion-ordered association list, key = product id. -/
abbrev SelMap := List (Int × Product)

/-- `Map.prototype.has`. -/
def mapHas (m : SelMap) (k : Int) : Bool :=
  m.any (fun kv => kv.1 == k)

/-- `Map.prototype.set`: update in place when the key exists, append otherwise. -/
def mapSet (m : SelMap) (k : Int) (v : Product) : SelMap :=
  if mapHas m k then m.map (fun kv => if kv.1 == k then (k, v) else kv)
  else m ++ [(k, v)]

/-- `Map.prototype.delete`. -/
def mapDelete (m : SelMap) (k : Int) : SelMap :=
  m.filter (fun kv => kv.1 != k)

/-- `Map.prototype.get`. -/
def mapLookup (m : SelMap) (k : Int) : Option Product :=
  (m.find? (fun kv => kv.1 == k)).map (fun kv => kv.2)

/-- `Array.from(m.keys())`. -/
def mapKeys (m : SelMap) : List Int :=
  m.map (fun kv => kv.1)

/- ----------------------------------------------------------------
   localStorage cell for STORAGE_KEY = "selectedProductIds".
   The stored string is modelled by its JSON.parse outcome.
   ---------------------------------------------------------------- -/

/-- A JSON value, as produced by `JSON.parse` on the stored string. -/
inductive JsonVal
  | null
  | boolVal (b : Bool)
  | num (n : Int)
  | str (s : String)
  | arr (xs : List JsonVal)
  | objVal

/-- The `localStorage` cell under `STORAGE_KEY`, by `JSON.parse` outcome:
absent (`getItem` returns null), present but not valid JSON
(`JSON.parse` throws), or present and parsing to a `JsonVal`. -/
inductive StoredVal
  | absent
  | unparseable
  | json (v : JsonVal)

/- ----------------------------------------------------------------
   Catalog loader (`loadProducts`).
   ---------------------------------------------------------------- -/

/-- Outcome of `response.json()` on the catalog fetch: the body is not
valid JSON, or it parses and has (or lacks) a `products` field. -/
inductive BodyParse
  | invalid
  | valid (products : Option (List Product))
deriving DecidableEq

/-- Outcome of `fetch("products.json")`: rejected, or resolved with a
status code and a body. -/
inductive FetchOutcome
  | netError
  | response (status : Nat) (body : BodyParse)
deriving DecidableEq

/-- The two ways `loadProducts` can reject: the fetch itself rejects, or
`response.json()` rejects on a non-JSON body. -/
inductive LoadError
  | networkFailure
  | parseFailure
deriving DecidableEq

/-- What one call to `loadProducts` produced: the value the promise
resolves with, the cache cell afterwards, and whether a fetch was issued. -/
structure LoadResult where
  result : Option (List Product)
  cache : Option (List Product)
  fetched : Bool
deriving DecidableEq

/-- `loadProducts` (script.js 16-22).  `window.allProductsCache` is the
`cache` argument.  Note the source never reads `response.ok`: the status
of the response is ignored, and `data.products` (possibly `undefined`)
is cached and returned as is. -/
def loadProducts (cache : Option (List Product)) (oracle : FetchOutcome) :
    Except LoadError LoadResult :=
  match cache with
  | some c => Except.ok ⟨some c, some c, false⟩
  | none =>
    match oracle with
    | FetchOutcome.netError => Except.error LoadError.networkFailure
    | FetchOutcome.response _ BodyParse.invalid => Except.error LoadError.parseFailure
    | FetchOutcome.response _ (BodyParse.valid prods) => Except.ok ⟨prods, prods, true⟩

/- ----------------------------------------------------------------
   Completion client (`sendMessagesToAI`).
   ---------------------------------------------------------------- -/

/-- One element of `data.choices`; `messageContent` stands for
`choices[i].message?.content`, `text` for `choices[i].text`. -/
structure Choice where
  messageContent : Option String
  text : Option String
deriving DecidableEq

/-- The parsed JSON body of a worker response, restricted to the fields
the extraction chain reads (a missing field is `none`). -/
structure CompletionData where
  content : Option String
  text : Option String
  answer : Option String
  message : Option String
  choices : List Choice
deriving DecidableEq

/-- A response of the worker POST: status, raw body text (read on the
error path), and the JSON parse of the body (read on the ok path). -/
structure WorkerResponse where
  status : Nat
  bodyText : String
  bodyJson : Option CompletionData
deriving DecidableEq

/-- JS `String.prototype.trim`: strip whitespace from both ends.  It is
defined over the character list so that it evaluates by kernel
reduction (the built-in `String.trim` does not). -/
def jsTrim (s : String) : String :=
  String.mk (((s.data.dropWhile Char.isWhitespace).reverse.dropWhile
    Char.isWhitespace).reverse)

/-- `resp.ok`: status in the range 200-299. -/
def respOk (r : WorkerResponse) : Bool :=
  decide (200 ≤ r.status) && decide (r.status < 300)

/-- JS truthiness of a string-or-undefined value: `undefined` and `""`
are falsy. -/
def jsTruthy (s : Option String) : Bool :=
  match s with
  | some t => t != ""
  | none => false

/-- JS `a || b` on string-or-undefined values. -/
def jsOr (a b : Option String) : Option String :=
  if jsTruthy a then a else b

/-- The extraction chain of script.js 119-126:
`data?.content || data?.text || data?.answer || data?.message ||
data?.choices?.[0]?.message?.content || data?.choices?.[0]?.text || null`. -/
def extractAiText (d : CompletionData) : Option String :=
  jsOr d.content (jsOr d.text (jsOr d.answer (jsOr d.message
    (jsOr (d.choices.head?.bind Choice.messageContent)
      (jsOr (d.choices.head?.bind Choice.text) none)))))

/-- The ways `sendMessagesToAI` can throw: the worker answered non-2xx
(`CompletionEndpointError` of the spec, carrying status and body text),
the 2xx body was not JSON, or no probed shape held a non-empty value
(`MalformedCompletionResponse` of the spec). -/
inductive CompletionError
  | endpoint (statusCode : Nat) (bodyText : String)
  | invalidJson
  | malformed
deriving DecidableEq

/-- `sendMessagesToAI` (script.js 96-135).  The conversation payload does
not influence the result, which is determined by the worker response,
passed here as the explicit argument. -/
def sendMessagesToAI (r : WorkerResponse) : Except CompletionError String :=
  if respOk r then
    match r.bodyJson with
    | none => Except.error CompletionError.invalidJson
    | some data =>
      match extractAiText data with
      | some aiText => Except.ok (jsTrim aiText)
      | none => Except.error CompletionError.malformed
  else
    Except.error (CompletionError.endpoint r.status r.bodyText)

/-- The `err.message` of each thrown error, as interpolated into the
chat notice.  The engine-specific wording of a JSON `SyntaxError` is
abstracted by a fixed string; no claim depends on it. -/
def errMessage : CompletionError → String
  | CompletionError.endpoint st txt => "Worker error: " ++ toString st ++ " " ++ txt
  | CompletionError.invalidJson => "Unexpected token in JSON"
  | CompletionError.malformed => "No assistant text returned from worker"

/-- Spec-side description of the extraction, following the spec's words:
the ordered list of probed shapes (top-level `content`, `text`, `answer`,
`message`, then `choices[0].message.content`, then `choices[0].text`). -/
def specProbeShapes (d : CompletionData) : List (Option String) :=
  [d.content, d.text, d.answer, d.message,
   d.choices.head?.bind Choice.messageContent,
   d.choices.head?.bind Choice.text]

/-- Spec-side description of the extraction: the first shape yielding a
non-empty value wins. -/
def specExtractReply (d : CompletionData) : Option String :=
  ((specProbeShapes d).filterMap id).find? (fun v => v != "")

/- ----------------------------------------------------------------
   Whole-client state.
   ---------------------------------------------------------------- -/

/-- The mutable client state the claims talk about: the catalog cache,
the selection map, the conversation array, the visible chat window, the
persisted record, the disabled flags of the send and generate buttons,
and a ghost counter of completion POSTs issued. -/
structure AppState where
  allProductsCache : Option (List Product)
  selectedProducts : SelMap
  messages : List Message
  chatWindow : List Message
  storage : StoredVal
  sendBtnDisabled : Bool
  generateRoutineBtnDisabled : Bool
  remoteCalls : Nat

/-- `appendMessageToChat` (script.js 49-59): the window gains one entry
whose text has been trimmed. -/
def appendMessageToChat (cw : List Message) (role : Role) (text : String) :
    List Message :=
  cw ++ [⟨role, jsTrim text⟩]

/-- Drop the first assistant-role entry of a list, if any. -/
def dropFirstAssistant : List Message → List Message
  | [] => []
  | m :: rest =>
    if m.role = Role.assistant then rest else m :: dropFirstAssistant rest

/-- Lines 308-309 / 377-378: query all `.chat-message.assistant` nodes
and remove the last one when the list is non-empty. -/
def removeLastAssistant (cw : List Message) : List Message :=
  (dropFirstAssistant cw.reverse).reverse

/- ----------------------------------------------------------------
   Selection store: persist, toggle, restore.
   ---------------------------------------------------------------- -/

/-- `saveSelectionsToStorage` (script.js 64-72): the cell receives the
JSON encoding of `Array.from(selectedProducts.keys())`.  The model is
the run in which the write succeeds (the `catch` only swallows quota
errors). -/
def saveSelectionsToStorage (sel : SelMap) : StoredVal :=
  StoredVal.json (JsonVal.arr ((mapKeys sel).map JsonVal.num))

/-- `toggleSelection` (script.js 219-231): look the id up in the cached
catalog (`window.allProductsCache || []`); absent id is a no-op;
otherwise delete or insert, then persist.  `updateCardHighlight` and
`renderSelectedProducts` touch only the DOM and carry no modelled
state. -/
def toggleSelection (s : AppState) (productId : Int) : AppState :=
  match (s.allProductsCache.getD []).find? (fun p => p.id == productId) with
  | none => s
  | some product =>
    let sel :=
      if mapHas s.selectedProducts productId then
        mapDelete s.selectedProducts productId
      else
        mapSet s.selectedProducts productId product
    { s with selectedProducts := sel, storage := saveSelectionsToStorage sel }

/-- One step of the `ids.forEach` of script.js 83-86: find a catalog
product whose `id` is strictly equal (`===`) to the parsed element; a
non-number element equals no numeric product id, so only `num` can
match. -/
def restoreStep (catalog : List Product) (sel : SelMap) (e : JsonVal) : SelMap :=
  match e with
  | JsonVal.num n =>
    match catalog.find? (fun p => p.id == n) with
    | some prod => mapSet sel n prod
    | none => sel
  | _ => sel

/-- `restoreSelectionsFromStorage` (script.js 74-94).  The early returns
for an absent cell, an unparseable cell (JSON.parse throws into the
`catch`), and a non-array value happen before `await loadProducts()`;
on the array branch the load runs (its fetch outcome is the oracle
argument), a rejected load lands in the `catch` and aborts the restore,
and the surviving ids are folded into the selection map.  The final
`renderSelectedProducts` / `updateCardHighlight` calls are DOM-only. -/
def restoreSelectionsFromStorage (s : AppState) (oracle : FetchOutcome) :
    AppState :=
  match s.storage with
  | StoredVal.absent => s
  | StoredVal.unparseable => s
  | StoredVal.json v =>
    match v with
    | JsonVal.arr ids =>
      match loadProducts s.allProductsCache oracle with
      | Except.error _ => s
      | Except.ok lr =>
        let catalog := lr.cache.getD []
        { s with
            allProductsCache := lr.cache,
            selectedProducts := ids.foldl (restoreStep catalog) s.selectedProducts }
    | _ => s

/- ----------------------------------------------------------------
   Chat form submit handler (script.js 292-320).
   ---------------------------------------------------------------- -/

/-- The ConversationLog fragment of the submit handler (script.js
295-298), the spec's `appendUser`: trim, reject when empty, otherwise
push a user message with the trimmed text. -/
def appendUser (log : List Message) (text : String) : List Message :=
  if jsTrim text = "" then log else log ++ [⟨Role.user, jsTrim text⟩]

/-- The submit handler (script.js 292-320), as a big-step function of
the input field value and of the worker response of the one POST it
issues.  On the error branch note the placeholder-removal lines 308-309
sit after the `await` inside `try`, hence never run. -/
def chatSubmit (s : AppState) (inputValue : String) (r : WorkerResponse) :
    AppState :=
  let text := jsTrim inputValue
  if text = "" then s
  else
    let s1 : AppState :=
      { s with
          messages := s.messages ++ [⟨Role.user, text⟩],
          chatWindow := appendMessageToChat s.chatWindow Role.user text,
          sendBtnDisabled := true,
          generateRoutineBtnDisabled := true }
    let s2 : AppState :=
      { s1 with
          chatWindow := appendMessageToChat s1.chatWindow Role.assistant "Thinking...",
          remoteCalls := s1.remoteCalls + 1 }
    match sendMessagesToAI r with
    | Except.ok aiText =>
      { s2 with
          chatWindow :=
            appendMessageToChat (removeLastAssistant s2.chatWindow) Role.assistant aiText,
          messages := s2.messages ++ [⟨Role.assistant, aiText⟩],
          sendBtnDisabled := false,
          generateRoutineBtnDisabled := false }
    | Except.error e =>
      { s2 with
          chatWindow :=
            appendMessageToChat s2.chatWindow Role.assistant ("Error: " ++ errMessage e),
          sendBtnDisabled := false,
          generateRoutineBtnDisabled := false }

/- ----------------------------------------------------------------
   Generate-routine click handler (script.js 345-392).
   ---------------------------------------------------------------- -/

/-- The projection of a selected product sent to the assistant
(script.js 346-352). -/
structure SelectedProj where
  id : Int
  name : String
  brand : String
  category : String
  description : String
deriving DecidableEq

/-- `Array.from(selectedProducts.values()).map(p => ({id, name, brand,
category, description}))`. -/
def projectSelected (m : SelMap) : List SelectedProj :=
  m.map (fun kv => ⟨kv.2.id, kv.2.name, kv.2.brand, kv.2.category, kv.2.description⟩)

/-- JSON string escaping for the characters occurring in catalog data
(JSON.stringify additionally hex-escapes other control characters). -/
def jsonEscape (s : String) : String :=
  s.foldl
    (fun acc c =>
      acc ++
        (if c = '\\' then "\\\\"
         else if c = '"' then "\\\""
         else if c = '\n' then "\\n"
         else if c = '\r' then "\\r"
         else if c = '\t' then "\\t"
         else String.singleton c))
    ""

/-- One object of `JSON.stringify(selected, null, 2)`, indented two
spaces inside the array. -/
def stringifyProj (p : SelectedProj) : String :=
  "  \x7b\n    \"id\": " ++ toString p.id ++
  ",\n    \"name\": \"" ++ jsonEscape p.name ++
  "\",\n    \"brand\": \"" ++ jsonEscape p.brand ++
  "\",\n    \"category\": \"" ++ jsonEscape p.category ++
  "\",\n    \"description\": \"" ++ jsonEscape p.description ++
  "\"\n  \x7d"

/-- `JSON.stringify(selected, null, 2)` on the projected array. -/
def stringifySelected (ps : List SelectedProj) : String :=
  match ps with
  | [] => "[]"
  | _ => "[\n" ++ String.intercalate ",\n" (ps.map stringifyProj) ++ "\n]"

/-- The synthetic user message of script.js 362-366. -/
def routineUserContent (selected : List SelectedProj) : String :=
  "Here are the selected products in JSON format:\n" ++
  stringifySelected selected ++
  "\n\nPlease provide a human-readable routine describing the order of use, recommended frequency (AM/PM/daily/weekly), and any important cautions."

/-- The generate-routine click handler (script.js 345-392), big-step in
the worker response of the one POST of its non-refusal branch.  As in
`chatSubmit`, the placeholder-removal lines 377-378 are unreachable on
the error branch. -/
def generateRoutineClick (s : AppState) (r : WorkerResponse) : AppState :=
  let selected := projectSelected s.selectedProducts
  if selected.length = 0 then
    { s with
        chatWindow :=
          appendMessageToChat s.chatWindow Role.assistant
            "Select at least one product to generate a routine." }
  else
    let s1 : AppState :=
      { s with
          messages := s.messages ++ [⟨Role.user, routineUserContent selected⟩],
          chatWindow :=
            appendMessageToChat s.chatWindow Role.user
              "(Selected products) See the list you provided." }
    let s2 : AppState :=
      { s1 with
          chatWindow :=
            appendMessageToChat s1.chatWindow Role.assistant "Generating routine...",
          sendBtnDisabled := true,
          generateRoutineBtnDisabled := true,
          remoteCalls := s1.remoteCalls + 1 }
    match sendMessagesToAI r with
    | Except.ok aiText =>
      { s2 with
          chatWindow :=
            appendMessageToChat (removeLastAssistant s2.chatWindow) Role.assistant aiText,
          messages := s2.messages ++ [⟨Role.assistant, aiText⟩],
          sendBtnDisabled := false,
          generateRoutineBtnDisabled := false }
    | Except.error e =>
      { s2 with
          chatWindow :=
            appendMessageToChat s2.chatWindow Role.assistant
              ("Error generating routine: " ++ errMessage e),
          sendBtnDisabled := false,
          generateRoutineBtnDisabled := false }

/- ----------------------------------------------------------------
   Concrete fixtures for scenarios, counterexamples and witnesses.
   ---------------------------------------------------------------- -/

/-- First fixture product.  Fixture states below use an empty
conversation seed: no claim reads the system message content, and every
log-related theorem quantifies over the prior log. -/
def prodOne : Product :=
  ⟨1, "Cleanser", "BrandA", "skincare", "Gentle daily cleanser", "img1.png"⟩

/-- Second fixture product. -/
def prodTwo : Product :=
  ⟨2, "Shampoo", "BrandB", "hair", "Volumizing shampoo", "img2.png"⟩

/-- Fixture catalog holding products 1 and 2. -/
def catalogTwo : List Product := [prodOne, prodTwo]

/-- A fixture state with a given cache, selection and storage cell. -/
def baseState (cache : Option (List Product)) (sel : SelMap) (st : StoredVal) :
    AppState :=
  { allProductsCache := cache
    selectedProducts := sel
    messages := []
    chatWindow := []
    storage := st
    sendBtnDisabled := false
    generateRoutineBtnDisabled := true
    remoteCalls := 0 }

/-- Selection-map values agree with the catalog: every stored pair is
what `find` returns for its key.  This is the spec's SelectionSet
invariant (every entry corresponds to the Catalog product it was
selected from). -/
def selConsistent (catalog : List Product) (sel : SelMap) : Prop :=
  ∀ kv ∈ sel, catalog.find? (fun p => p.id == kv.1) = some kv.2


/-- The first non-empty value among a list of optional shapes. -/
def probeAux (l : List (Option String)) : Option String :=
  (l.filterMap id).find? (fun v => v != "")

/- ----------------------------------------------------------------
   Helper lemmas: the JS map operations, trimming.
   ---------------------------------------------------------------- -/
lemma jsTrim_eq_rdrop (s : String) :
    jsTrim s = String.mk (List.rdropWhile Char.isWhitespace
      (List.dropWhile Char.isWhitespace s.data)) := by
  simp [jsTrim, List.rdropWhile]

lemma dropWhile_of_rdropWhile_of_head_not (p : Char → Bool) (x : List Char)
    (hx : List.dropWhile p x = x) :
    List.dropWhile p (List.rdropWhile p x) = List.rdropWhile p x := by
  obtain ⟨t, ht⟩ := List.rdropWhile_prefix (p := p) (l := x)
  cases hy : List.rdropWhile p x with
  | nil => simp
  | cons a ytl =>
    rw [hy] at ht
    rw [List.dropWhile_cons]
    have hpa : ¬ p a = true := by
      rw [← ht, List.cons_append, List.dropWhile_cons] at hx
      intro hp
      rw [if_pos hp] at hx
      have hle := (List.dropWhile_suffix p (l := ytl ++ t)).length_le
      rw [hx] at hle
      simp only [List.length_cons] at hle
      omega
    rw [if_neg hpa]

lemma jsTrim_idem (s : String) : jsTrim (jsTrim s) = jsTrim s := by
  rw [jsTrim_eq_rdrop, jsTrim_eq_rdrop]
  congr 1
  show List.rdropWhile Char.isWhitespace (List.dropWhile Char.isWhitespace
    (List.rdropWhile Char.isWhitespace (List.dropWhile Char.isWhitespace s.data)))
    = List.rdropWhile Char.isWhitespace (List.dropWhile Char.isWhitespace s.data)
  rw [dropWhile_of_rdropWhile_of_head_not Char.isWhitespace _
    (List.dropWhile_idempotent _ _), List.rdropWhile_idempotent]

lemma mapHas_eq_true {m : SelMap} {k : Int} : mapHas m k = true ↔ k ∈ mapKeys m := by
  simp only [mapHas, List.any_eq_true, mapKeys, List.mem_map]
  constructor
  · rintro ⟨kv, hmem, hbeq⟩
    exact ⟨kv, hmem, by simpa using hbeq⟩
  · rintro ⟨kv, hmem, rfl⟩
    exact ⟨kv, hmem, by simp⟩

lemma mapHas_eq_false {m : SelMap} {k : Int} : mapHas m k = false ↔ k ∉ mapKeys m := by
  rw [← Bool.not_eq_true, mapHas_eq_true]

lemma mapLookup_cons_self {kv : Int × Product} {rest : SelMap} {k : Int} (hk : kv.1 = k) :
    mapLookup (kv :: rest) k = some kv.2 := by
  simp only [mapLookup]
  rw [List.find?_cons_of_pos _ (by simp [hk])]
  rfl

lemma mapLookup_cons_ne {kv : Int × Product} {rest : SelMap} {k : Int} (hk : kv.1 ≠ k) :
    mapLookup (kv :: rest) k = mapLookup rest k := by
  simp only [mapLookup]
  rw [List.find?_cons_of_neg _ (by simp [hk])]

lemma mapDelete_cons_self {kv : Int × Product} {rest : SelMap} {k : Int} (hk : kv.1 = k) :
    mapDelete (kv :: rest) k = mapDelete rest k := by
  simp [mapDelete, List.filter_cons, hk]

lemma mapDelete_cons_ne {kv : Int × Product} {rest : SelMap} {k : Int} (hk : kv.1 ≠ k) :
    mapDelete (kv :: rest) k = kv :: mapDelete rest k := by
  simp [mapDelete, List.filter_cons, hk]

lemma mem_mapKeys_delete {m : SelMap} {k k' : Int} :
    k' ∈ mapKeys (mapDelete m k) ↔ k' ∈ mapKeys m ∧ k' ≠ k := by
  simp only [mapKeys, mapDelete, List.mem_map, List.mem_filter]
  constructor
  · rintro ⟨kv, ⟨hmem, hne⟩, rfl⟩
    exact ⟨⟨kv, hmem, rfl⟩, by simpa using hne⟩
  · rintro ⟨⟨kv, hmem, rfl⟩, hne⟩
    exact ⟨kv, ⟨hmem, by simpa using hne⟩, rfl⟩

lemma mapHas_delete_self {m : SelMap} {k : Int} :
    mapHas (mapDelete m k) k = false := by
  rw [mapHas_eq_false]
  intro hmem
  exact (mem_mapKeys_delete.mp hmem).2 rfl

lemma mapLookup_delete_self {m : SelMap} {k : Int} :
    mapLookup (mapDelete m k) k = none := by
  induction m with
  | nil => rfl
  | cons kv rest ih =>
    by_cases hk : kv.1 = k
    · rw [mapDelete_cons_self hk]; exact ih
    · rw [mapDelete_cons_ne hk, mapLookup_cons_ne hk]; exact ih

lemma mapLookup_delete_ne {m : SelMap} {k k' : Int} (h : k' ≠ k) :
    mapLookup (mapDelete m k) k' = mapLookup m k' := by
  induction m with
  | nil => rfl
  | cons kv rest ih =>
    by_cases hk : kv.1 = k
    · rw [mapDelete_cons_self hk, ih, mapLookup_cons_ne]
      rw [hk]
      exact fun hh => h hh.symm
    · by_cases hk' : kv.1 = k'
      · rw [mapDelete_cons_ne hk, mapLookup_cons_self hk', mapLookup_cons_self hk']
      · rw [mapDelete_cons_ne hk, mapLookup_cons_ne hk', mapLookup_cons_ne hk']
        exact ih

lemma mapLookup_append_right_ne {m : SelMap} {k k' : Int} {v : Product} (h : k' ≠ k) :
    mapLookup (m ++ [(k, v)]) k' = mapLookup m k' := by
  induction m with
  | nil =>
    simp only [List.nil_append]
    rw [mapLookup_cons_ne (by simpa using fun hh => h hh.symm)]
  | cons kv rest ih =>
    by_cases hk' : kv.1 = k'
    · rw [List.cons_append, mapLookup_cons_self hk', mapLookup_cons_self hk']
    · rw [List.cons_append, mapLookup_cons_ne hk', mapLookup_cons_ne hk']
      exact ih

lemma mapLookup_append_self_of_none {m : SelMap} {k : Int} {v : Product}
    (h : mapLookup m k = none) :
    mapLookup (m ++ [(k, v)]) k = some v := by
  induction m with
  | nil => exact mapLookup_cons_self rfl
  | cons kv rest ih =>
    by_cases hk : kv.1 = k
    · rw [mapLookup_cons_self hk] at h; simp at h
    · rw [mapLookup_cons_ne hk] at h
      rw [List.cons_append, mapLookup_cons_ne hk]
      exact ih h

lemma mapLookup_of_has {m : SelMap} {k : Int} (h : mapHas m k = true) :
    ∃ v, mapLookup m k = some v ∧ (k, v) ∈ m := by
  induction m with
  | nil => simp [mapHas] at h
  | cons kv rest ih =>
    by_cases hk : kv.1 = k
    · refine ⟨kv.2, mapLookup_cons_self hk, ?_⟩
      rw [← hk]
      exact List.mem_cons_self kv rest
    · have h' : mapHas rest k = true := by
        simp only [mapHas, List.any_cons] at h
        rcases Bool.or_eq_true_iff.mp h with h1 | h2
        · exact absurd (by simpa using h1) hk
        · exact h2
      obtain ⟨v, hv, hmem⟩ := ih h'
      exact ⟨v, by rw [mapLookup_cons_ne hk]; exact hv, List.mem_cons_of_mem _ hmem⟩

lemma mapSet_of_not_has {m : SelMap} {k : Int} {v : Product} (h : mapHas m k = false) :
    mapSet m k v = m ++ [(k, v)] := by
  simp [mapSet, h]

lemma mapHas_append {a b : SelMap} {k : Int} :
    mapHas (a ++ b) k = (mapHas a k || mapHas b k) := by
  simp [mapHas]

lemma mapKeys_append {a b : SelMap} : mapKeys (a ++ b) = mapKeys a ++ mapKeys b := by
  simp [mapKeys]

lemma mapDelete_append_not_has {m : SelMap} {k : Int} {v : Product}
    (h : mapHas m k = false) :
    mapDelete (m ++ [(k, v)]) k = m := by
  induction m with
  | nil =>
    simp only [List.nil_append]
    exact mapDelete_cons_self rfl
  | cons kv rest ih =>
    have hk : kv.1 ≠ k := by
      intro hh
      rw [mapHas_eq_false] at h
      exact h (by simp [mapKeys, hh.symm])
    have h' : mapHas rest k = false := by
      simp only [mapHas, List.any_cons] at h
      exact (Bool.or_eq_false_iff.mp h).2
    rw [List.cons_append, mapDelete_cons_ne hk, ih h']

lemma mem_mapKeys_set {m : SelMap} {k k' : Int} {v : Product} :
    k' ∈ mapKeys (mapSet m k v) ↔ k' ∈ mapKeys m ∨ k' = k := by
  by_cases h : mapHas m k = true
  · have hkeys : mapKeys (m.map (fun kv => if kv.1 == k then (k, v) else kv)) = mapKeys m := by
      simp only [mapKeys, List.map_map]
      apply List.map_congr_left
      intro kv _
      by_cases hk : kv.1 = k
      · simp [hk]
      · simp [hk]
    simp only [mapSet, h, if_true]
    rw [hkeys]
    constructor
    · exact Or.inl
    · rintro (hh | rfl)
      · exact hh
      · exact mapHas_eq_true.mp h
  · have h' : mapHas m k = false := by simpa using h
    simp [mapSet, h', mapKeys_append, mapKeys]

lemma jsOr_eq_probeAux (a : Option String) (l : List (Option String)) :
    jsOr a (probeAux l) = probeAux (a :: l) := by
  cases a with
  | none => simp [jsOr, jsTruthy, probeAux]
  | some s =>
    by_cases hs : s = ""
    · simp [jsOr, jsTruthy, probeAux, hs, List.find?_cons]
    · simp only [jsOr, jsTruthy, bne_iff_ne, ne_eq, hs, not_false_eq_true, if_true, probeAux,
        List.filterMap_cons, id]
      rw [List.find?_cons_of_pos _ (by simpa using hs)]

lemma extract_eq_spec (d : CompletionData) : extractAiText d = specExtractReply d := by
  show jsOr d.content (jsOr d.text (jsOr d.answer (jsOr d.message
    (jsOr (d.choices.head?.bind Choice.messageContent)
      (jsOr (d.choices.head?.bind Choice.text) none)))))
    = specExtractReply d
  rw [show (none : Option String) = probeAux [] from rfl]
  rw [jsOr_eq_probeAux, jsOr_eq_probeAux, jsOr_eq_probeAux, jsOr_eq_probeAux,
    jsOr_eq_probeAux, jsOr_eq_probeAux]
  rfl

/-- Folding the surviving ids over a disjoint accumulator appends the
whole consistent selection. -/
lemma restore_fold_eq_append (catalog : List Product) :
    ∀ (sel : SelMap) (acc : SelMap),
      (mapKeys sel).Nodup →
      selConsistent catalog sel →
      (∀ k ∈ mapKeys sel, mapHas acc k = false) →
      ((mapKeys sel).map JsonVal.num).foldl (restoreStep catalog) acc = acc ++ sel := by
  intro sel
  induction sel with
  | nil => intro acc _ _ _; simp [mapKeys]
  | cons kv rest ih =>
    intro acc hnd hcons hdis
    have hkeys : mapKeys (kv :: rest) = kv.1 :: mapKeys rest := rfl
    rw [hkeys]
    simp only [List.map_cons, List.foldl_cons]
    have hfind : catalog.find? (fun p => p.id == kv.1) = some kv.2 :=
      hcons kv (List.mem_cons_self kv rest)
    have hstep : restoreStep catalog acc (JsonVal.num kv.1) = acc ++ [(kv.1, kv.2)] := by
      simp only [restoreStep, hfind]
      exact mapSet_of_not_has (hdis kv.1 (by rw [hkeys]; exact List.mem_cons_self _ _))
    rw [hstep]
    have hnd' : (mapKeys rest).Nodup := by
      rw [hkeys] at hnd
      exact hnd.of_cons
    have hcons' : selConsistent catalog rest := fun kv' hmem =>
      hcons kv' (List.mem_cons_of_mem _ hmem)
    have hdis' : ∀ k ∈ mapKeys rest, mapHas (acc ++ [(kv.1, kv.2)]) k = false := by
      intro k hk
      rw [mapHas_append, Bool.or_eq_false_iff]
      constructor
      · exact hdis k (by rw [hkeys]; exact List.mem_cons_of_mem _ hk)
      · have hne : kv.1 ≠ k := by
          rw [hkeys] at hnd
          intro hh
          rw [hh] at hnd
          exact (List.nodup_cons.mp hnd).1 hk
        simp [mapHas, hne]
      -- note order
    rw [ih (acc ++ [(kv.1, kv.2)]) hnd' hcons' hdis']
    rw [List.append_assoc, List.singleton_append]

/-- Membership in the keys after folding the persisted ids: an id
survives exactly when it was already there or is a numeric element of
the array matched by some catalog product. -/
lemma mem_keys_restore_fold (catalog : List Product) :
    ∀ (ids : List JsonVal) (acc : SelMap) (k : Int),
      k ∈ mapKeys (ids.foldl (restoreStep catalog) acc) ↔
        k ∈ mapKeys acc ∨ (JsonVal.num k ∈ ids ∧ ∃ p ∈ catalog, p.id = k) := by
  intro ids
  induction ids with
  | nil => intro acc k; simp
  | cons e rest ih =>
    intro acc k
    simp only [List.foldl_cons]
    rw [ih]
    have hstep : k ∈ mapKeys (restoreStep catalog acc e) ↔
        k ∈ mapKeys acc ∨ (e = JsonVal.num k ∧ ∃ p ∈ catalog, p.id = k) := by
      cases e with
      | num n =>
        cases hfind : catalog.find? (fun p => p.id == n) with
        | some prod =>
          rw [show restoreStep catalog acc (JsonVal.num n) = mapSet acc n prod by
            simp [restoreStep, hfind]]
          rw [mem_mapKeys_set]
          constructor
          · rintro (hh | rfl)
            · exact Or.inl hh
            · refine Or.inr ⟨rfl, prod, List.mem_of_find?_eq_some hfind, ?_⟩
              simpa using List.find?_some hfind
          · rintro (hh | ⟨he, _⟩)
            · exact Or.inl hh
            · injection he with he
              exact Or.inr he.symm
        | none =>
          rw [show restoreStep catalog acc (JsonVal.num n) = acc by
            simp [restoreStep, hfind]]
          constructor
          · exact Or.inl
          · rintro (hh | ⟨he, p, hp, hpk⟩)
            · exact hh
            · injection he with he
              rw [List.find?_eq_none] at hfind
              exact absurd (by simp [hpk, he]) (hfind p hp)
      | null => simp [restoreStep]
      | boolVal b => simp [restoreStep]
      | str s => simp [restoreStep]
      | arr xs => simp [restoreStep]
      | objVal => simp [restoreStep]
    rw [hstep]
    simp only [List.mem_cons]
    constructor
    · rintro ((hh | ⟨he, hex⟩) | ⟨hmem, hex⟩)
      · exact Or.inl hh
      · exact Or.inr ⟨Or.inl he.symm, hex⟩
      · exact Or.inr ⟨Or.inr hmem, hex⟩
    · rintro (hh | ⟨(he | hmem), hex⟩)
      · exact Or.inl (Or.inl hh)
      · exact Or.inl (Or.inr ⟨he.symm, hex⟩)
      · exact Or.inr ⟨hmem, hex⟩


/- ----------------------------------------------------------------
   Claim theorems: selection store (C2, C9).
   ---------------------------------------------------------------- -/
lemma mapLookup_eq_none_of_not_has {m : SelMap} {k : Int}
    (h : mapHas m k = false) : mapLookup m k = none := by
  have hk := mapHas_eq_false.mp h
  have hf : m.find? (fun kv => kv.1 == k) = none := by
    rw [List.find?_eq_none]
    intro kv hkv hbeq
    exact hk (List.mem_map.mpr ⟨kv, hkv, by simpa using hbeq⟩)
  simp [mapLookup, hf]

lemma toggle_none {s : AppState} {pid : Int}
    (h : (s.allProductsCache.getD []).find? (fun p => p.id == pid) = none) :
    toggleSelection s pid = s := by
  simp [toggleSelection, h]

lemma toggle_some_has {s : AppState} {pid : Int} {prod : Product}
    (hf : (s.allProductsCache.getD []).find? (fun p => p.id == pid) = some prod)
    (hh : mapHas s.selectedProducts pid = true) :
    toggleSelection s pid =
      { s with selectedProducts := mapDelete s.selectedProducts pid,
               storage := saveSelectionsToStorage (mapDelete s.selectedProducts pid) } := by
  simp [toggleSelection, hf, hh]

lemma toggle_some_not_has {s : AppState} {pid : Int} {prod : Product}
    (hf : (s.allProductsCache.getD []).find? (fun p => p.id == pid) = some prod)
    (hh : mapHas s.selectedProducts pid = false) :
    toggleSelection s pid =
      { s with selectedProducts := mapSet s.selectedProducts pid prod,
               storage := saveSelectionsToStorage (mapSet s.selectedProducts pid prod) } := by
  simp [toggleSelection, hf, hh]

/-- C9: for every product id and SelectionSet state, `toggle(productId)`
is a no-op when no Product with that id exists in the current Catalog;
when the Product exists and is already selected, toggle removes it from
the SelectionSet; when it exists and is not selected, toggle inserts it;
and in both mutating cases the persistence write is performed (the
stored record becomes the encoding of the new selection). -/
theorem toggle_characterization :
    ∀ (s : AppState) (pid : Int),
      (((s.allProductsCache.getD []).find? (fun p => p.id == pid)) = none →
        toggleSelection s pid = s) ∧
      (∀ prod, ((s.allProductsCache.getD []).find? (fun p => p.id == pid)) = some prod →
        (mapHas s.selectedProducts pid = true →
          mapLookup (toggleSelection s pid).selectedProducts pid = none ∧
          (∀ k, k ≠ pid → mapLookup (toggleSelection s pid).selectedProducts k
            = mapLookup s.selectedProducts k) ∧
          (toggleSelection s pid).storage
            = saveSelectionsToStorage (toggleSelection s pid).selectedProducts) ∧
        (mapHas s.selectedProducts pid = false →
          mapLookup (toggleSelection s pid).selectedProducts pid = some prod ∧
          (∀ k, k ≠ pid → mapLookup (toggleSelection s pid).selectedProducts k
            = mapLookup s.selectedProducts k) ∧
          (toggleSelection s pid).storage
            = saveSelectionsToStorage (toggleSelection s pid).selectedProducts)) := by
  intro s pid
  refine ⟨toggle_none, ?_⟩
  intro prod hf
  constructor
  · intro hh
    rw [toggle_some_has hf hh]
    refine ⟨mapLookup_delete_self, fun k hk => mapLookup_delete_ne hk, rfl⟩
  · intro hh
    rw [toggle_some_not_has hf hh]
    rw [mapSet_of_not_has hh]
    refine ⟨?_, fun k hk => mapLookup_append_right_ne hk, ?_⟩
    · exact mapLookup_append_self_of_none (mapLookup_eq_none_of_not_has hh)
    · rw [← mapSet_of_not_has hh]

/-- C2 counterexample: from the in-sync state selecting products 1 and 2
in that order, toggling id 1 twice yields the selection sequence
`[(2, _), (1, _)]` and the stored record `[2, 1]` - neither the
SelectionSet (as the insertion-ordered sequence a JS `Map` is) nor the
Persisted Selection Record equals its pre-toggle value. -/
theorem toggle_twice_changes_order_and_record :
    ((toggleSelection (toggleSelection (baseState (some catalogTwo)
        [(1, prodOne), (2, prodTwo)]
        (StoredVal.json (JsonVal.arr [JsonVal.num 1, JsonVal.num 2]))) 1) 1).selectedProducts
      ≠ [(1, prodOne), (2, prodTwo)]) ∧
    ((toggleSelection (toggleSelection (baseState (some catalogTwo)
        [(1, prodOne), (2, prodTwo)]
        (StoredVal.json (JsonVal.arr [JsonVal.num 1, JsonVal.num 2]))) 1) 1).storage
      ≠ StoredVal.json (JsonVal.arr [JsonVal.num 1, JsonVal.num 2])) := by
  constructor
  · decide
  · intro h
    have h1 : (toggleSelection (toggleSelection (baseState (some catalogTwo)
        [(1, prodOne), (2, prodTwo)]
        (StoredVal.json (JsonVal.arr [JsonVal.num 1, JsonVal.num 2]))) 1) 1).storage
        = StoredVal.json (JsonVal.arr [JsonVal.num 2, JsonVal.num 1]) := rfl
    rw [h1] at h
    simp at h

/-- C2 amended: toggling the same id twice is a complete no-op when the
id is not in the Catalog; otherwise it leaves the SelectionSet unchanged
as a mapping (every id keeps its product, the key set is unchanged),
though the toggled entry may move to the end of the insertion order, and
it leaves the Persisted Selection Record equal to the encoding of the
(set-equal) resulting key sequence.  The scenario toggle(1), toggle(1),
toggle(2) from an empty selection yields SelectionSet = {2} exactly. -/
theorem toggle_twice_preserves_selection_as_map :
    (∀ (s : AppState) (pid : Int),
      selConsistent (s.allProductsCache.getD []) s.selectedProducts →
      (((s.allProductsCache.getD []).find? (fun p => p.id == pid)) = none →
        toggleSelection (toggleSelection s pid) pid = s) ∧
      (∀ k, mapLookup (toggleSelection (toggleSelection s pid) pid).selectedProducts k
        = mapLookup s.selectedProducts k) ∧
      (∀ k, k ∈ mapKeys (toggleSelection (toggleSelection s pid) pid).selectedProducts
        ↔ k ∈ mapKeys s.selectedProducts) ∧
      (((s.allProductsCache.getD []).find? (fun p => p.id == pid)).isSome →
        (toggleSelection (toggleSelection s pid) pid).storage
          = saveSelectionsToStorage
              (toggleSelection (toggleSelection s pid) pid).selectedProducts)) ∧
    (toggleSelection (toggleSelection (toggleSelection
      (baseState (some catalogTwo) [] StoredVal.absent) 1) 1) 2).selectedProducts
      = [(2, prodTwo)] := by
  constructor
  · intro s pid hcons
    cases hfind : (s.allProductsCache.getD []).find? (fun p => p.id == pid) with
    | none =>
      have hid : toggleSelection s pid = s := toggle_none hfind
      refine ⟨fun _ => by rw [hid, hid], fun k => by rw [hid, hid],
        fun k => by rw [hid, hid], fun hs => by simp at hs⟩
    | some p =>
      by_cases hh : mapHas s.selectedProducts pid = true
      · -- already selected: delete, then re-insert at the end
        have h1 := toggle_some_has hfind hh
        have hc1 : (toggleSelection s pid).allProductsCache = s.allProductsCache := by
          rw [h1]
        have hsel1 : (toggleSelection s pid).selectedProducts
            = mapDelete s.selectedProducts pid := by rw [h1]
        have hf2 : ((toggleSelection s pid).allProductsCache.getD []).find?
            (fun p => p.id == pid) = some p := by rw [hc1]; exact hfind
        have hh2 : mapHas (toggleSelection s pid).selectedProducts pid = false := by
          rw [hsel1]; exact mapHas_delete_self
        have h2 := toggle_some_not_has hf2 hh2
        have hsel2 : (toggleSelection (toggleSelection s pid) pid).selectedProducts
            = mapDelete s.selectedProducts pid ++ [(pid, p)] := by
          rw [h2, mapSet_of_not_has hh2, hsel1]
        obtain ⟨v, hv, hvmem⟩ := mapLookup_of_has hh
        have hvp : v = p := by
          have := hcons (pid, v) hvmem
          rw [hfind] at this
          injection this with hvp
          exact hvp.symm
    -- conjuncts
        refine ⟨fun hnone => absurd hnone (by simp), ?_, ?_, fun _ => ?_⟩
        · intro k
          by_cases hk : k = pid
          · subst hk
            rw [hsel2, mapLookup_append_self_of_none mapLookup_delete_self, hv, hvp]
          · rw [hsel2, mapLookup_append_right_ne hk, mapLookup_delete_ne hk]
        · intro k
          rw [hsel2, mapKeys_append]
          simp only [List.mem_append]
          constructor
          · rintro (hmem | hmem)
            · exact (mem_mapKeys_delete.mp hmem).1
            · have : k = pid := by simpa [mapKeys] using hmem
              subst this
              exact mapHas_eq_true.mp hh
          · intro hmem
            by_cases hk : k = pid
            · subst hk; right; simp [mapKeys]
            · left; exact mem_mapKeys_delete.mpr ⟨hmem, hk⟩
        · rw [h2, mapSet_of_not_has hh2, hsel1]
      · -- not selected: insert at the end, then delete restores exactly
        have hh' : mapHas s.selectedProducts pid = false := by simpa using hh
        have h1 := toggle_some_not_has hfind hh'
        have hc1 : (toggleSelection s pid).allProductsCache = s.allProductsCache := by
          rw [h1]
        have hsel1 : (toggleSelection s pid).selectedProducts
            = s.selectedProducts ++ [(pid, p)] := by
          rw [h1, mapSet_of_not_has hh']
        have hf2 : ((toggleSelection s pid).allProductsCache.getD []).find?
            (fun p => p.id == pid) = some p := by rw [hc1]; exact hfind
        have hh2 : mapHas (toggleSelection s pid).selectedProducts pid = true := by
          rw [hsel1, mapHas_append]
          simp [mapHas]
        have h2 := toggle_some_has hf2 hh2
        have hsel2 : (toggleSelection (toggleSelection s pid) pid).selectedProducts
            = s.selectedProducts := by
          rw [h2, hsel1, mapDelete_append_not_has hh']
        refine ⟨fun hnone => absurd hnone (by simp),
          fun k => by rw [hsel2], fun k => by rw [hsel2], fun _ => ?_⟩
        · rw [h2, hsel1, mapDelete_append_not_has hh']
  · rfl


/-- Witness for C9 at id 1 of the two-product catalog, empty selection:
the toggle inserts product 1 and the lookup finds it. -/
theorem toggle_characterization_witness :
    mapLookup (toggleSelection (baseState (some catalogTwo) [] StoredVal.absent)
      1).selectedProducts 1 = some prodOne := by
  have h := ((toggle_characterization (baseState (some catalogTwo) [] StoredVal.absent)
    1).2 prodOne rfl).2 rfl
  exact h.1

/-- Witness for C2 at a consistent one-product selection: after toggling
id 1 twice the lookup of id 1 is unchanged. -/
theorem toggle_twice_preserves_selection_as_map_witness :
    mapLookup (toggleSelection (toggleSelection
      (baseState (some catalogTwo) [(1, prodOne)] StoredVal.absent) 1) 1).selectedProducts 1
      = mapLookup (baseState (some catalogTwo) [(1, prodOne)]
          StoredVal.absent).selectedProducts 1 := by
  have h := (toggle_twice_preserves_selection_as_map.1
    (baseState (some catalogTwo) [(1, prodOne)] StoredVal.absent) 1
    (by
      intro kv hkv
      simp only [baseState, List.mem_singleton] at hkv
      subst hkv
      rfl)).2.1 1
  exact h


/- ----------------------------------------------------------------
   Claim theorems: completion client, loader, restore, handlers.
   ---------------------------------------------------------------- -/
/-- C1: for every 2xx completion response with a JSON body, the reply is
the first non-empty value among the probed shapes, in the fixed spec
order, trimmed; when no shape yields a non-empty value the call fails
with the missing-text error; the sample choices-nested response yields
exactly the nested content. -/
theorem extraction_follows_spec_order :
    (∀ (r : WorkerResponse) (d : CompletionData),
      respOk r = true → r.bodyJson = some d →
      sendMessagesToAI r =
        (match specExtractReply d with
         | some v => Except.ok (jsTrim v)
         | none => Except.error CompletionError.malformed)) ∧
    sendMessagesToAI ⟨200, "",
      some ⟨none, none, none, none, [⟨some "Use AM then PM.", none⟩]⟩⟩
      = Except.ok "Use AM then PM." := by
  constructor
  · intro r d hok hjson
    simp only [sendMessagesToAI, hok, if_true, hjson]
    rw [extract_eq_spec]
  · rfl

/-- Witness for C1: a 204 response whose `content` is empty and whose
`text` is a padded non-empty string; the empty shape is skipped and the
next one wins, trimmed. -/
theorem extraction_follows_spec_order_witness :
    sendMessagesToAI ⟨204, "", some ⟨some "", some " hi ", none, none, []⟩⟩
      = Except.ok "hi" := by
  have h := extraction_follows_spec_order.1
    ⟨204, "", some ⟨some "", some " hi ", none, none, []⟩⟩
    ⟨some "", some " hi ", none, none, []⟩ rfl rfl
  rw [h]
  rfl

/-- C3: persisting a non-empty catalog-consistent SelectionSet and then
restoring into a fresh session with the same Catalog reproduces an
identical SelectionSet. -/
theorem persist_restore_roundtrip :
    ∀ (catalog : List Product) (sel : SelMap) (s : AppState) (oracle : FetchOutcome),
      sel ≠ [] →
      (mapKeys sel).Nodup →
      selConsistent catalog sel →
      s.allProductsCache = some catalog →
      s.selectedProducts = [] →
      s.storage = saveSelectionsToStorage sel →
      (restoreSelectionsFromStorage s oracle).selectedProducts = sel := by
  intro catalog sel s oracle hne hnd hcons hcache hsel hstore
  simp only [restoreSelectionsFromStorage, hstore, saveSelectionsToStorage,
    loadProducts, hcache, hsel, Option.getD_some]
  rw [restore_fold_eq_append catalog sel [] hnd hcons (fun k _ => rfl)]
  rfl

/-- Witness for C3 at the two-product selection persisted as [1, 2]. -/
theorem persist_restore_roundtrip_witness :
    (restoreSelectionsFromStorage
      (baseState (some catalogTwo) []
        (saveSelectionsToStorage [(1, prodOne), (2, prodTwo)]))
      FetchOutcome.netError).selectedProducts = [(1, prodOne), (2, prodTwo)] := by
  apply persist_restore_roundtrip catalogTwo [(1, prodOne), (2, prodTwo)]
  · simp
  · decide
  · intro kv hkv
    simp only [List.mem_cons, List.mem_singleton] at hkv
    rcases hkv with rfl | rfl | h
    · rfl
    · rfl
    · cases h
  · rfl
  · rfl
  · rfl

/-- C4: a non-2xx worker response makes `sendMessagesToAI` fail with the
endpoint error carrying exactly the response status and body text, and
the failing chat turn leaves the ConversationLog holding the previously
appended user message and nothing else new. -/
theorem endpoint_error_preserves_conversation :
    (∀ r : WorkerResponse, respOk r = false →
      sendMessagesToAI r = Except.error (CompletionError.endpoint r.status r.bodyText)) ∧
    (∀ (s : AppState) (input : String) (r : WorkerResponse),
      jsTrim input ≠ "" → respOk r = false →
      (chatSubmit s input r).messages = s.messages ++ [⟨Role.user, jsTrim input⟩]) := by
  constructor
  · intro r h
    simp [sendMessagesToAI, h]
  · intro s input r hne hok
    have herr : sendMessagesToAI r
        = Except.error (CompletionError.endpoint r.status r.bodyText) := by
      simp [sendMessagesToAI, hok]
    simp [chatSubmit, hne, herr]

/-- Witness for C4: an HTTP 500 response with body "server error"
produces the endpoint error with that status and body, and the log gains
only the user's message. -/
theorem endpoint_error_preserves_conversation_witness :
    sendMessagesToAI ⟨500, "server error", none⟩
      = Except.error (CompletionError.endpoint 500 "server error") ∧
    (chatSubmit (baseState (some catalogTwo) [] StoredVal.absent) "hi"
      ⟨500, "server error", none⟩).messages = [⟨Role.user, "hi"⟩] := by
  constructor
  · exact endpoint_error_preserves_conversation.1 ⟨500, "server error", none⟩ rfl
  · have h := endpoint_error_preserves_conversation.2
      (baseState (some catalogTwo) [] StoredVal.absent) "hi"
      ⟨500, "server error", none⟩ (by decide) rfl
    rw [h]
    rfl

/-- C5 counterexample: the first catalog load with an HTTP 500 response
whose body is valid JSON succeeds (it even caches the body's products) -
the loader never inspects the response status, so a non-success status
does not fail. -/
theorem load_ignores_status_counterexample :
    loadProducts none (FetchOutcome.response 500 (BodyParse.valid (some [prodOne])))
      = Except.ok ⟨some [prodOne], some [prodOne], true⟩ ∧ ¬ (200 ≤ 500 ∧ 500 < 300) := by
  exact ⟨rfl, by decide⟩

/-- C5 amended: the first call fails exactly when the fetch itself fails
or the body is not valid JSON - the HTTP status is never inspected, and
any response with a valid JSON body succeeds with the body's `products`
field (possibly absent) as the new cache; every call finding a populated
cache returns it without issuing a fetch, so after a first load that
cached a catalog no later call fetches again. -/
theorem load_first_call_and_caching :
    (∀ (c : List Product) (o : FetchOutcome),
      loadProducts (some c) o = Except.ok ⟨some c, some c, false⟩) ∧
    (∀ (st : Nat) (prods : Option (List Product)),
      loadProducts none (FetchOutcome.response st (BodyParse.valid prods))
        = Except.ok ⟨prods, prods, true⟩) ∧
    (loadProducts none FetchOutcome.netError = Except.error LoadError.networkFailure) ∧
    (∀ st : Nat, loadProducts none (FetchOutcome.response st BodyParse.invalid)
      = Except.error LoadError.parseFailure) ∧
    (∀ (c : List Product) (o1 o2 : FetchOutcome) (lr : LoadResult),
      loadProducts none o1 = Except.ok lr → lr.cache = some c →
      loadProducts lr.cache o2 = Except.ok ⟨some c, some c, false⟩) := by
  refine ⟨fun c o => rfl, fun st prods => rfl, rfl, fun st => rfl, ?_⟩
  intro c o1 o2 lr _ hcache
  rw [hcache]
  rfl

/-- Witness for C5: a first load caching the one-product catalog followed
by a second call that returns the cache without fetching. -/
theorem load_first_call_and_caching_witness :
    loadProducts (some [prodOne]) FetchOutcome.netError
      = Except.ok ⟨some [prodOne], some [prodOne], false⟩ := by
  exact load_first_call_and_caching.2.2.2.2 [prodOne]
    (FetchOutcome.response 200 (BodyParse.valid (some [prodOne])))
    FetchOutcome.netError ⟨some [prodOne], some [prodOne], true⟩ rfl rfl

/-- C6 counterexample: on a failing chat turn the "Thinking..."
placeholder is NOT removed - the final chat window still contains it,
followed by the error notice. -/
theorem chat_failure_placeholder_remains :
    (chatSubmit (baseState (some catalogTwo) [] StoredVal.absent) "hello"
        ⟨500, "server error", none⟩).chatWindow
      = [⟨Role.user, "hello"⟩, ⟨Role.assistant, "Thinking..."⟩,
         ⟨Role.assistant, "Error: Worker error: 500 server error"⟩] ∧
    (⟨Role.assistant, "Thinking..."⟩ : Message) ∈
      (chatSubmit (baseState (some catalogTwo) [] StoredVal.absent) "hello"
        ⟨500, "server error", none⟩).chatWindow := by
  constructor
  · rfl
  · decide

/-- C6 amended: on every failing completion request, both handlers leave
the transient placeholder in the visible chat, append an assistant-role
error notice after it, and re-enable both controls in the
guaranteed-execution step. -/
theorem failure_appends_notice_and_reenables :
    (∀ (s : AppState) (input : String) (r : WorkerResponse) (e : CompletionError),
      jsTrim input ≠ "" → sendMessagesToAI r = Except.error e →
      (chatSubmit s input r).chatWindow
        = s.chatWindow ++ [⟨Role.user, jsTrim input⟩, ⟨Role.assistant, "Thinking..."⟩,
            ⟨Role.assistant, jsTrim ("Error: " ++ errMessage e)⟩] ∧
      (chatSubmit s input r).sendBtnDisabled = false ∧
      (chatSubmit s input r).generateRoutineBtnDisabled = false) ∧
    (∀ (s : AppState) (r : WorkerResponse) (e : CompletionError),
      s.selectedProducts ≠ [] → sendMessagesToAI r = Except.error e →
      (generateRoutineClick s r).chatWindow
        = s.chatWindow ++ [⟨Role.user, "(Selected products) See the list you provided."⟩,
            ⟨Role.assistant, "Generating routine..."⟩,
            ⟨Role.assistant, jsTrim ("Error generating routine: " ++ errMessage e)⟩] ∧
      (generateRoutineClick s r).sendBtnDisabled = false ∧
      (generateRoutineClick s r).generateRoutineBtnDisabled = false) := by
  constructor
  · intro s input r e hne herr
    have hthink : jsTrim "Thinking..." = "Thinking..." := rfl
    have huser : jsTrim (jsTrim input) = jsTrim input := jsTrim_idem input
    simp [chatSubmit, hne, herr, appendMessageToChat, hthink, huser, List.append_assoc]
  · intro s r e hne herr
    have hlen : ¬ (projectSelected s.selectedProducts).length = 0 := by
      simp only [projectSelected, List.length_map, List.length_eq_zero]
      exact hne
    have h1 : jsTrim "(Selected products) See the list you provided."
        = "(Selected products) See the list you provided." := rfl
    have h2 : jsTrim "Generating routine..." = "Generating routine..." := rfl
    simp [generateRoutineClick, hlen, herr, appendMessageToChat, h1, h2, List.append_assoc]

/-- Witness for C6: the concrete failing routine click with one selected
product re-enables both buttons. -/
theorem failure_appends_notice_and_reenables_witness :
    (generateRoutineClick (baseState (some catalogTwo) [(1, prodOne)] StoredVal.absent)
      ⟨500, "server error", none⟩).sendBtnDisabled = false := by
  have h := (failure_appends_notice_and_reenables.2
    (baseState (some catalogTwo) [(1, prodOne)] StoredVal.absent)
    ⟨500, "server error", none⟩ (CompletionError.endpoint 500 "server error")
    (by simp [baseState]) rfl).2.1
  exact h

/-- C7: restore is a no-op when the Persisted Selection Record is absent,
unparseable, or not an array; otherwise, starting from the empty
startup SelectionSet with the Catalog loaded, it populates the
SelectionSet with exactly the ids that are both in the persisted array
and carried by some catalog Product - ids with no matching Product are
silently omitted, and no failure path exists (restore is total). -/
theorem restore_noop_or_intersection :
    (∀ (s : AppState) (o : FetchOutcome), s.storage = StoredVal.absent →
      restoreSelectionsFromStorage s o = s) ∧
    (∀ (s : AppState) (o : FetchOutcome), s.storage = StoredVal.unparseable →
      restoreSelectionsFromStorage s o = s) ∧
    (∀ (s : AppState) (o : FetchOutcome) (v : JsonVal), s.storage = StoredVal.json v →
      (∀ xs, v ≠ JsonVal.arr xs) → restoreSelectionsFromStorage s o = s) ∧
    (∀ (s : AppState) (o : FetchOutcome) (catalog : List Product) (ids : List JsonVal),
      s.storage = StoredVal.json (JsonVal.arr ids) →
      s.allProductsCache = some catalog →
      s.selectedProducts = [] →
      ∀ k : Int, k ∈ mapKeys (restoreSelectionsFromStorage s o).selectedProducts ↔
        (JsonVal.num k ∈ ids ∧ ∃ p ∈ catalog, p.id = k)) := by
  refine ⟨?_, ?_, ?_, ?_⟩
  · intro s o h
    simp [restoreSelectionsFromStorage, h]
  · intro s o h
    simp [restoreSelectionsFromStorage, h]
  · intro s o v h hnotarr
    cases v with
    | arr xs => exact absurd rfl (hnotarr xs)
    | null => simp [restoreSelectionsFromStorage, h]
    | boolVal b => simp [restoreSelectionsFromStorage, h]
    | num n => simp [restoreSelectionsFromStorage, h]
    | str t => simp [restoreSelectionsFromStorage, h]
    | objVal => simp [restoreSelectionsFromStorage, h]
  · intro s o catalog ids hst hcache hsel k
    simp only [restoreSelectionsFromStorage, hst, loadProducts, hcache, hsel,
      Option.getD_some]
    rw [mem_keys_restore_fold catalog ids [] k]
    simp [mapKeys]

/-- Witness for C7: persisted array [2, 9] against the two-product
catalog keeps id 2 and silently drops id 9. -/
theorem restore_noop_or_intersection_witness :
    (2 ∈ mapKeys (restoreSelectionsFromStorage
      (baseState (some catalogTwo) []
        (StoredVal.json (JsonVal.arr [JsonVal.num 2, JsonVal.num 9])))
      FetchOutcome.netError).selectedProducts) ∧
    ¬ (9 ∈ mapKeys (restoreSelectionsFromStorage
      (baseState (some catalogTwo) []
        (StoredVal.json (JsonVal.arr [JsonVal.num 2, JsonVal.num 9])))
      FetchOutcome.netError).selectedProducts) := by
  have h := restore_noop_or_intersection.2.2.2
    (baseState (some catalogTwo) []
      (StoredVal.json (JsonVal.arr [JsonVal.num 2, JsonVal.num 9])))
    FetchOutcome.netError catalogTwo [JsonVal.num 2, JsonVal.num 9] rfl rfl rfl
  constructor
  · rw [h 2]
    refine ⟨by simp, prodTwo, by simp [catalogTwo], rfl⟩
  · rw [h 9]
    rintro ⟨-, p, hp, hpk⟩
    simp only [catalogTwo, List.mem_cons, List.mem_singleton] at hp
    rcases hp with rfl | rfl | hfalse
    · exact absurd hpk (by decide)
    · exact absurd hpk (by decide)
    · cases hfalse

/-- C8: clicking generate-routine with an empty SelectionSet issues zero
completion calls and appends exactly one assistant-role guidance message
to the visible chat, leaving everything else - in particular the
ConversationLog - unchanged. -/
theorem empty_selection_routine_refusal :
    ∀ (s : AppState) (r : WorkerResponse), s.selectedProducts = [] →
      generateRoutineClick s r =
        { s with chatWindow := s.chatWindow ++
            [⟨Role.assistant, "Select at least one product to generate a routine."⟩] } := by
  intro s r h
  have hguide : jsTrim "Select at least one product to generate a routine."
      = "Select at least one product to generate a routine." := rfl
  simp [generateRoutineClick, projectSelected, h, appendMessageToChat, hguide]

/-- Witness for C8: the concrete empty-selection click appends only the
guidance message and keeps the call counter at zero. -/
theorem empty_selection_routine_refusal_witness :
    generateRoutineClick (baseState (some catalogTwo) [] StoredVal.absent)
        ⟨200, "", none⟩
      = { baseState (some catalogTwo) [] StoredVal.absent with
          chatWindow := [⟨Role.assistant,
            "Select at least one product to generate a routine."⟩] } := by
  have h := empty_selection_routine_refusal
    (baseState (some catalogTwo) [] StoredVal.absent) ⟨200, "", none⟩ rfl
  rw [h]
  rfl

/-- C10: `appendUser` is a no-op on text that is empty after trimming -
in particular on the empty and the all-blank strings - and otherwise
appends exactly one user message holding the trimmed text; the submit
handler is a complete no-op on blank input, and on non-blank input its
ConversationLog is the `appendUser` result plus the assistant reply on
success and nothing more on failure. -/
theorem appendUser_trims_and_rejects_blank :
    (∀ log : List Message, appendUser log "" = log) ∧
    (∀ log : List Message, appendUser log "   " = log) ∧
    (∀ (log : List Message) (t : String), jsTrim t = "" →
      (appendUser log t).length = log.length) ∧
    (∀ (log : List Message) (t : String), jsTrim t ≠ "" →
      appendUser log t = log ++ [⟨Role.user, jsTrim t⟩]) ∧
    (∀ (s : AppState) (input : String) (r : WorkerResponse), jsTrim input = "" →
      chatSubmit s input r = s) ∧
    (∀ (s : AppState) (input : String) (r : WorkerResponse), jsTrim input ≠ "" →
      (chatSubmit s input r).messages
        = appendUser s.messages input ++
          (match sendMessagesToAI r with
           | Except.ok t => [⟨Role.assistant, t⟩]
           | Except.error _ => [])) := by
  refine ⟨?_, ?_, ?_, ?_, ?_, ?_⟩
  · intro log
    rfl
  · intro log
    rfl
  · intro log t h
    simp [appendUser, h]
  · intro log t h
    simp [appendUser, h]
  · intro s input r h
    simp [chatSubmit, h]
  · intro s input r h
    cases hsend : sendMessagesToAI r with
    | ok t => simp [chatSubmit, h, hsend, appendUser, List.append_assoc]
    | error e => simp [chatSubmit, h, hsend, appendUser]

/-- Witness for C10: the blank-input no-op and the non-blank append at
concrete values. -/
theorem appendUser_trims_and_rejects_blank_witness :
    chatSubmit (baseState (some catalogTwo) [] StoredVal.absent) "   "
        ⟨500, "x", none⟩
      = baseState (some catalogTwo) [] StoredVal.absent ∧
    appendUser [] " hi " = [⟨Role.user, "hi"⟩] := by
  constructor
  · exact appendUser_trims_and_rejects_blank.2.2.2.2.1
      (baseState (some catalogTwo) [] StoredVal.absent) "   " ⟨500, "x", none⟩ rfl
  · have h := appendUser_trims_and_rejects_blank.2.2.2.1 [] " hi " (by decide)
    rw [h]
    rfl

end RoutineBuilder
